import Mathlib

/-!
Verification development for the Price Notifier service (`src/combined/app.py`).

The pipeline is embedded shallowly:
* a fetched page is modelled as the list of (id, text) pairs that
  `BeautifulSoup.find(id=...)` can see, plus the whole-document visible text
  returned by `soup.get_text()`;
* the regular expression `[\d,]+\.?\d*` used by `re.search` / `re.findall`
  is modelled by an explicit leftmost greedy matcher over characters
  (the pattern has no backtracking: after the maximal `[\d,]+` run the two
  remaining pieces are optional);
* Python `float(...)` applied to a comma-stripped token is modelled by an
  exact decimal parser into `ℚ` (every string the pipeline can hand to
  `float` has the shape `digits* ['.' digits*]`, on which `float` succeeds
  iff at least one digit is present);
* network I/O and the Twilio transport are explicit parameters, and side
  effects (`asyncio.sleep`, `client.messages.create`) are recorded as an
  event trace.
-/

namespace PriceNotifier

/-- Characters accepted by the character class `[\d,]` of the price pattern
(`\d` restricted to ASCII digits, which covers every literal in the repo). -/
def isTokChar (c : Char) : Bool := c.isDigit || c == ','

/-- Greedy match of `[\d,]+\.?\d*` anchored at the head of `cs`; callers
ensure the head satisfies `isTokChar`, so the `+` part is non-empty.  The
pattern needs no backtracking: the maximal `[\d,]+` run, then `.` if it is
the next character, then the maximal digit run. -/
def tokenAt (cs : List Char) : List Char :=
  let r1 := cs.takeWhile isTokChar
  let rest := cs.drop r1.length
  if rest.head? = some '.' then r1 ++ '.' :: rest.tail.takeWhile Char.isDigit else r1

/-- Model of `re.search(r"[\d,]+\.?\d*", s)`: the leftmost match, if any.  A match
can start exactly at a character of the class `[\d,]`. -/
def firstTok : List Char → Option (List Char)
  | [] => none
  | c :: cs => if isTokChar c then some (tokenAt (c :: cs)) else firstTok cs

/-- String wrapper for `firstTok`. -/
def firstTokStr (s : String) : Option String :=
  (firstTok s.data).map List.asString

/-- Comma removal, `numeric.replace(",", "")`. -/
def stripCommas (cs : List Char) : List Char := cs.filter (fun c => c != ',')

/-- Value of a digit string read in base 10. -/
def digitsVal (cs : List Char) : ℕ := cs.foldl (fun a c => 10 * a + (c.toNat - 48)) 0

/-- Python `float(s)` on the strings this pipeline can produce
(`digits* ['.' digits*]` after comma stripping): succeeds iff the string
contains a digit, returning the exact decimal value
`ip.fp = (ip * 10^|fp| + fp) / 10^|fp|`. -/
def pyFloat? (cs : List Char) : Option ℚ :=
  if (cs.all fun c => c.isDigit || c == '.') && cs.count '.' ≤ 1 && cs.any Char.isDigit then
    let ip := cs.takeWhile (fun c => c != '.')
    let fp := (cs.dropWhile (fun c => c != '.')).tail
    some (Rat.divInt (digitsVal ip * 10 ^ fp.length + digitsVal fp) (10 ^ fp.length))
  else none

/-- Whitespace as stripped by Python `str.strip()` (the ASCII part, which
covers every input in this development). -/
def isSpaceChar (c : Char) : Bool :=
  c == ' ' || c == '\t' || c == '\n' || c == '\r' || c == '\x0b' || c == '\x0c'

/-- Python `s.strip()`: drop whitespace from both ends. -/
def pyStrip (s : String) : String :=
  ((s.data.dropWhile isSpaceChar).reverse.dropWhile isSpaceChar).reverse.asString

/-- Does `needle` occur as a contiguous substring of the second list?
(Used to state "the body contains the literal ..." properties.) -/
def hasSubstr (needle : List Char) : List Char → Bool
  | [] => needle.isPrefixOf []
  | c :: t => needle.isPrefixOf (c :: t) || hasSubstr needle t

/-- A fetched, parsed page: what `BeautifulSoup` exposes to `fetch_price`.
`elements` lists `(id, get_text())` for the elements the id lookup can find
(first occurrence wins, as in `soup.find`); `text` is `soup.get_text()` for
the whole document. -/
structure Page where
  elements : List (String × String)
  text : String
deriving Repr, DecidableEq

/-- Lookup `soup.find(id=pid)` followed by `get_text()`. -/
def Page.findId (p : Page) (pid : String) : Option String :=
  (p.elements.find? fun e => e.1 == pid).map (·.2)

/-- The fixed priority list of known price-element ids. -/
def priceIds : List String :=
  ["priceblock_ourprice", "priceblock_dealprice", "priceblock_saleprice"]

/-- The `for pid in (...)` loop of `fetch_price`: the loop breaks at the
first id whose element exists and has truthy (non-empty) `get_text()`,
recording the stripped text; ids with a missing element or empty text are
skipped. -/
def loopText (p : Page) : Option String :=
  priceIds.findSome? fun pid =>
    match p.findId pid with
    | some t => if t = "" then none else some (pyStrip t)
    | none => none

/-- The candidate `price_text` after the loop and the
`if not price_text:` fallback scan of the whole page text. -/
def candidateText (p : Page) : Option String :=
  match loopText p with
  | some t => if t = "" then firstTokStr p.text else some t
  | none => firstTokStr p.text

/-- The distinct failure kinds of the service, one per `raise` site
(plus the transport-level ones). -/
inductive AppError where
  | fetchFailure (detail : String)
  | noPriceFound
  | unrecognizedFormat
  | parseFailure
  | credentialsMissing
  | recipientMissing
  | senderMissing
  | deliveryFailure (detail : String)
deriving Repr, DecidableEq

/-- The human-readable `detail` string each failure carries
(the `detail=` argument of the corresponding `HTTPException`). -/
def AppError.detail : AppError → String
  | .fetchFailure d => d
  | .noPriceFound => "Could not parse price from page."
  | .unrecognizedFormat => "Price format not recognized."
  | .parseFailure => "Price parse failed."
  | .credentialsMissing => "Twilio credentials missing (SID/AUTH)."
  | .recipientMissing => "Recipient WhatsApp number missing."
  | .senderMissing => "WhatsApp sender number missing (FROM_WHATSAPP)."
  | .deliveryFailure d => d

/-- The extraction part of `fetch_price` (everything after the HTTP response
has been obtained and parsed; the network call itself is modelled at the
orchestrator as an `Except` input).  `re.findall(...)[0]` on the candidate is
the leftmost match, i.e. `firstTok`. -/
def fetch_price (p : Page) : Except AppError ℚ :=
  match candidateText p with
  | none => .error .noPriceFound
  | some t =>
    match firstTok t.data with
    | none => .error .unrecognizedFormat
    | some tok =>
      match pyFloat? (stripCommas tok) with
      | some v => .ok v
      | none => .error .parseFailure

/-- Process-wide configuration read via `decouple.config(..., default=None)`.
`none` models an unset environment variable. -/
structure Config where
  sid : Option String
  auth : Option String
  to_whatsapp : Option String
  from_whatsapp : Option String
deriving Repr, DecidableEq

/-- Python truthiness of an optional string: `None` and `""` are falsy. -/
def truthy : Option String → Option String
  | some s => if s = "" then none else some s
  | none => none

/-- Model of `_twilio_client`: fails fast when SID or AUTH is missing/empty. -/
def twilio_client (cfg : Config) : Except AppError Unit :=
  match truthy cfg.sid, truthy cfg.auth with
  | some _, some _ => .ok ()
  | _, _ => .error .credentialsMissing

/-- Test of `to_number.startswith("whatsapp:")`. -/
def hasScheme (s : String) : Bool := "whatsapp:".data.isPrefixOf s.data

/-- The scheme normalisation applied by `_resolve_recipient`. -/
def withScheme (s : String) : String := if hasScheme s then s else "whatsapp:" ++ s

/-- Model of `_resolve_recipient`: per-request override (when truthy), else the
configured default; error when neither; the `whatsapp:` scheme prefix is
prepended exactly when absent. -/
def resolve_recipient (cfg : Config) (send_to : Option String) : Except AppError String :=
  match truthy send_to with
  | some v => .ok (withScheme v)
  | none =>
      match truthy cfg.to_whatsapp with
      | some d => .ok (withScheme d)
      | none => .error .recipientMissing

/-- Model of `_get_from_number`. -/
def get_from_number (cfg : Config) : Except AppError String :=
  match truthy cfg.from_whatsapp with
  | some f => .ok f
  | none => .error .senderMissing

/-- One call to `client.messages.create`. -/
structure DeliveryCall where
  body : String
  from_number : String
  to_number : String
deriving Repr, DecidableEq

/-- Observable side effects of the dispatcher: an `asyncio.sleep` of a
number of seconds, or one delivery attempt on the transport. -/
inductive Ev where
  | sleep (seconds : ℕ)
  | send (call : DeliveryCall)
deriving Repr, DecidableEq

/-- Is this event a delivery attempt? -/
def Ev.isSend : Ev → Bool
  | .send _ => true
  | .sleep _ => false

/-- The transport: what `client.messages.create` returns for a given call
(`.ok sid` on success, `.error detail` when Twilio rejects the message). -/
def Transport := DeliveryCall → Except String String

/-- Model of `send_whatsapp`: credentials, recipient and sender are resolved in that
order, each failing before any transport call; then exactly one delivery
attempt is made.  Returns the message sid and the trace of events. -/
def send_whatsapp (cfg : Config) (tr : Transport) (body : String)
    (to_override : Option String) : Except AppError String × List Ev :=
  match twilio_client cfg with
  | .error e => (.error e, [])
  | .ok _ =>
    match resolve_recipient cfg to_override with
    | .error e => (.error e, [])
    | .ok to_number =>
      match get_from_number cfg with
      | .error e => (.error e, [])
      | .ok from_number =>
        let call : DeliveryCall := ⟨body, from_number, to_number⟩
        match tr call with
        | .ok sid => (.ok sid, [.send call])
        | .error d => (.error (.deliveryFailure d), [.send call])

/-- Model of `delayed_whatsapp`: `if delay_minutes: await asyncio.sleep(delay_minutes * 60)`
then one `send_whatsapp` call.  The suspension is recorded as a `sleep` event
carrying its duration in seconds. -/
def delayed_whatsapp (cfg : Config) (tr : Transport) (body : String)
    (delay_minutes : ℕ) (to_override : Option String) :
    Except AppError String × List Ev :=
  let pre : List Ev := if delay_minutes ≠ 0 then [.sleep (delay_minutes * 60)] else []
  let r := send_whatsapp cfg tr body to_override
  (r.1, pre ++ r.2)

/-- The request payload (`NotifyRequest` in the source).  Validation
(`gt=0`, `0 ≤ delay ≤ 1440`) is carried as the pydantic field constraints;
`delay_minutes` is a natural number since `ge=0` holds on every accepted
request.  Prices are exact rationals standing for the Python floats. -/
structure NotifyRequest where
  url : String
  target_price : ℚ
  delay_minutes : ℕ
  send_to : Option String
deriving Repr, DecidableEq

/-- The JSON success payload of `/api/notify`. -/
structure NotifyResponse where
  status : String
  sid : Option String
  price : ℚ
  triggered : Bool
deriving Repr, DecidableEq

/-- Decimal digits of the fraction `r / d` (with `r < d`), shortest
terminating expansion, bounded by fuel.  Long division one digit at a
time. -/
def fracDigits : ℕ → ℕ → ℕ → List Char
  | 0, _, _ => []
  | fuel + 1, r, d =>
    if r = 0 then []
    else Char.ofNat (48 + r * 10 / d) :: fracDigits fuel (r * 10 % d) d

/-- Python `f"{x}"` on a non-negative float holding a short decimal value:
the shortest round-tripping decimal, always with at least one fractional
digit (`repr(20.0) == "20.0"`, `repr(19.99) == "19.99"`). -/
def formatPrice (q : ℚ) : String :=
  let ds := fracDigits 30 (q.num % (q.den : ℤ)).toNat q.den
  toString (q.num / (q.den : ℤ)) ++ "." ++ (if ds.isEmpty then "0" else ds.asString)

/-- The f-string message body built in `notify`. -/
def messageBody (req : NotifyRequest) (price : ℚ) (triggered : Bool) : String :=
  "Price alert for " ++ req.url ++ "\n" ++
  "Current price: " ++ formatPrice price ++ "\n" ++
  "Target: " ++ formatPrice req.target_price ++ "\n" ++
  "Triggered: " ++ (if triggered then "yes" else "no")

/-- The `/api/notify` handler.  The network fetch (`requests.get` +
`raise_for_status`) is the `fetched` input: `.error d` models an unreachable
host, timeout, or non-2xx status with its exception text `d`; `.ok page`
models a 2xx response parsed by BeautifulSoup.  Returns the response (or
error) together with the trace of dispatcher side effects. -/
def notify (cfg : Config) (tr : Transport) (req : NotifyRequest)
    (fetched : Except String Page) : Except AppError NotifyResponse × List Ev :=
  match fetched with
  | .error d => (.error (.fetchFailure d), [])
  | .ok page =>
    match fetch_price page with
    | .error e => (.error e, [])
    | .ok price =>
      let triggered : Bool := price ≤ req.target_price
      let body := messageBody req price triggered
      if triggered then
        let r := delayed_whatsapp cfg tr body req.delay_minutes req.send_to
        match r.1 with
        | .ok sid => (.ok ⟨"sent", some sid, price, true⟩, r.2)
        | .error e => (.error e, r.2)
      else
        (.ok ⟨"not_triggered", none, price, false⟩, [])

end PriceNotifier

deriving instance DecidableEq for Except

namespace PriceNotifier

/-- All four configuration variables are set and non-empty (so the dispatch
path can reach the transport). -/
def Config.complete (cfg : Config) : Bool :=
  (truthy cfg.sid).isSome && (truthy cfg.auth).isSome &&
  (truthy cfg.to_whatsapp).isSome && (truthy cfg.from_whatsapp).isSome

/-- A configuration with every variable set, for concrete witnesses. -/
def cfgOK : Config := ⟨some "SIDv", some "AUTHv", some "+10000000000", some "+19999999999"⟩

/-- A transport that always succeeds, for concrete witnesses. -/
def trOK : Transport := fun _ => .ok "SM1"

/-- Under a complete configuration, `send_whatsapp` makes exactly one
delivery attempt carrying the given body, whatever the transport answers. -/
lemma send_whatsapp_trace (cfg : Config) (tr : Transport) (body : String)
    (ov : Option String) (h : cfg.complete = true) :
    ∃ call : DeliveryCall, call.body = body ∧
      (send_whatsapp cfg tr body ov).2 = [.send call] := by
  simp only [Config.complete, Bool.and_eq_true, Option.isSome_iff_exists] at h
  obtain ⟨⟨⟨⟨s, hs⟩, ⟨a, ha⟩⟩, ⟨d, hd⟩⟩, ⟨f, hf⟩⟩ := h
  cases hov : truthy ov with
  | some v =>
      refine ⟨⟨body, f, withScheme v⟩, rfl, ?_⟩
      simp only [send_whatsapp, twilio_client, resolve_recipient, get_from_number,
        hs, ha, hf, hov]
      cases tr ⟨body, f, withScheme v⟩ <;> rfl
  | none =>
      refine ⟨⟨body, f, withScheme d⟩, rfl, ?_⟩
      simp only [send_whatsapp, twilio_client, resolve_recipient, get_from_number,
        hs, ha, hd, hf, hov]
      cases tr ⟨body, f, withScheme d⟩ <;> rfl

/-- When recipient resolution fails, `send_whatsapp` performs no delivery
attempt at all (for any transport, whatever the other variables hold). -/
lemma send_whatsapp_no_send_of_resolve_error (cfg : Config) (tr : Transport)
    (body : String) (ov : Option String) (e : AppError)
    (h : resolve_recipient cfg ov = .error e) :
    (send_whatsapp cfg tr body ov).2 = [] := by
  unfold send_whatsapp
  cases htc : twilio_client cfg with
  | error e' => rfl
  | ok u => rw [h]

/-- Evaluation of `notify` on a page whose price is above the target: the not-triggered
branch, closed form. -/
lemma notify_not_triggered_eq (cfg : Config) (tr : Transport)
    (req : NotifyRequest) (page : Page) (price : ℚ)
    (hp : fetch_price page = .ok price) (hnle : ¬ price ≤ req.target_price) :
    notify cfg tr req (.ok page) =
      (.ok ⟨"not_triggered", none, price, false⟩, []) := by
  unfold notify
  dsimp only
  rw [hp]
  dsimp only
  rw [if_neg]
  simp only [decide_eq_true_eq]
  exact hnle

/-- Evaluation of `notify` on a page whose price is at or below the target: the triggered
branch, closed form in terms of `delayed_whatsapp`. -/
lemma notify_triggered_eq (cfg : Config) (tr : Transport)
    (req : NotifyRequest) (page : Page) (price : ℚ)
    (hp : fetch_price page = .ok price) (hle : price ≤ req.target_price) :
    notify cfg tr req (.ok page) =
      ((match (delayed_whatsapp cfg tr (messageBody req price true)
            req.delay_minutes req.send_to).1 with
        | .ok sid => .ok ⟨"sent", some sid, price, true⟩
        | .error e => .error e),
       (delayed_whatsapp cfg tr (messageBody req price true)
            req.delay_minutes req.send_to).2) := by
  unfold notify
  dsimp only
  rw [hp]
  dsimp only
  rw [show decide (price ≤ req.target_price) = true by simp [hle]]
  rw [if_pos rfl]
  cases hr : (delayed_whatsapp cfg tr (messageBody req price true)
      req.delay_minutes req.send_to).1 <;> rfl

/-- Under a complete configuration, the triggered branch performs the
optional sleep and then exactly one delivery attempt carrying the formatted
body. -/
lemma notify_triggered_send (cfg : Config) (tr : Transport)
    (req : NotifyRequest) (page : Page) (price : ℚ)
    (hp : fetch_price page = .ok price) (hle : price ≤ req.target_price)
    (hc : cfg.complete = true) :
    ∃ call : DeliveryCall, call.body = messageBody req price true ∧
      (notify cfg tr req (.ok page)).2 =
        (if req.delay_minutes ≠ 0 then [Ev.sleep (req.delay_minutes * 60)] else [])
          ++ [Ev.send call] := by
  obtain ⟨call, hb, htrace⟩ :=
    send_whatsapp_trace cfg tr (messageBody req price true) req.send_to hc
  refine ⟨call, hb, ?_⟩
  rw [notify_triggered_eq cfg tr req page price hp hle]
  simp only [delayed_whatsapp]
  rw [htrace]

/-- C2. For every valid request whose extracted price is strictly above
the target, `notify` answers `status = "not_triggered"`, `triggered = false`,
no message sid — and the dispatcher is never invoked: the event trace is
empty for every configuration and every transport. -/
theorem notify_above_target_no_dispatch (cfg : Config) (tr : Transport)
    (req : NotifyRequest) (page : Page) (price : ℚ)
    (hp : fetch_price page = .ok price) (hgt : req.target_price < price) :
    notify cfg tr req (.ok page) =
      (.ok ⟨"not_triggered", none, price, false⟩, []) :=
  notify_not_triggered_eq cfg tr req page price hp (not_le.mpr hgt)

/-- Witness for C2: a page whose price `42` exceeds the target `20`;
the result is `not_triggered` with an empty trace. -/
theorem notify_above_target_no_dispatch_witness :
    notify cfgOK trOK ⟨"https://example.test/item", 20, 5, none⟩
        (.ok ⟨[("priceblock_ourprice", "$42.00")], "x"⟩) =
      (.ok ⟨"not_triggered", none, Rat.divInt 42 1, false⟩, []) :=
  notify_above_target_no_dispatch cfgOK trOK
    ⟨"https://example.test/item", 20, 5, none⟩
    ⟨[("priceblock_ourprice", "$42.00")], "x"⟩ (Rat.divInt 42 1)
    (by decide) (by decide)

/-- C5. A failed page fetch (unreachable host, timeout, non-2xx status)
surfaces as the distinct `fetchFailure` kind carrying the transport's
human-readable detail, before any extraction or dispatch step: the result is
the error with an empty event trace for every configuration, transport and
request, and the kind is distinct from every extraction error kind. -/
theorem fetch_failure_surfaced_first (cfg : Config) (tr : Transport)
    (req : NotifyRequest) (d : String) :
    notify cfg tr req (.error d) = (.error (.fetchFailure d), []) ∧
    (AppError.fetchFailure d).detail = d ∧
    AppError.fetchFailure d ≠ .noPriceFound ∧
    AppError.fetchFailure d ≠ .unrecognizedFormat ∧
    AppError.fetchFailure d ≠ .parseFailure :=
  ⟨rfl, rfl, by simp, by simp, by simp⟩

/-- C1. The threshold decision is inclusive: any successful response
reports `triggered = true` exactly when `price ≤ target` (so equality
triggers), the `not_triggered` answer appears exactly when the price is
strictly above the target, and whenever `price ≤ target` holds (equality
included) exactly one delivery attempt is made under a complete
configuration. -/
theorem threshold_inclusive (cfg : Config) (tr : Transport)
    (req : NotifyRequest) (page : Page) (price : ℚ)
    (hp : fetch_price page = .ok price) :
    (∀ resp, (notify cfg tr req (.ok page)).1 = .ok resp →
      (resp.triggered = true ↔ price ≤ req.target_price)) ∧
    (¬ price ≤ req.target_price ↔
      (notify cfg tr req (.ok page)).1 = .ok ⟨"not_triggered", none, price, false⟩) ∧
    (price ≤ req.target_price → cfg.complete = true →
      ((notify cfg tr req (.ok page)).2.filter Ev.isSend).length = 1) := by
  by_cases hle : price ≤ req.target_price
  · have heq := notify_triggered_eq cfg tr req page price hp hle
    refine ⟨?_, ?_, ?_⟩
    · intro resp hresp
      rw [heq] at hresp
      dsimp only at hresp
      cases hr : (delayed_whatsapp cfg tr (messageBody req price true)
          req.delay_minutes req.send_to).1 with
      | ok sid =>
          rw [hr] at hresp
          simp only [Except.ok.injEq] at hresp
          rw [← hresp]
          simpa using hle
      | error e => rw [hr] at hresp; exact absurd hresp (by simp)
    · constructor
      · intro h; exact absurd hle h
      · intro hres
        rw [heq] at hres
        dsimp only at hres
        cases hr : (delayed_whatsapp cfg tr (messageBody req price true)
            req.delay_minutes req.send_to).1 with
        | ok sid => rw [hr] at hres; simp at hres
        | error e => rw [hr] at hres; exact absurd hres (by simp)
    · intro _ hc
      obtain ⟨call, hb, htr⟩ := notify_triggered_send cfg tr req page price hp hle hc
      rw [htr]
      by_cases hd : req.delay_minutes = 0 <;> simp [hd, Ev.isSend]
  · have heq := notify_not_triggered_eq cfg tr req page price hp hle
    refine ⟨?_, ?_, ?_⟩
    · intro resp hresp
      rw [heq] at hresp
      simp only [Except.ok.injEq] at hresp
      rw [← hresp]
      simpa using hle
    · exact ⟨fun _ => by rw [heq], fun _ => hle⟩
    · intro h; exact absurd h hle

/-- Witness for C1 at the exact-equality input: price `19.99`, target
`19.99`; the request triggers and exactly one delivery attempt is made. -/
theorem threshold_inclusive_witness :
    ((notify cfgOK trOK ⟨"https://example.test/item", Rat.divInt 1999 100, 0, none⟩
        (.ok ⟨[("priceblock_ourprice", "$19.99")], "x"⟩)).2.filter Ev.isSend).length = 1 :=
  (threshold_inclusive cfgOK trOK
    ⟨"https://example.test/item", Rat.divInt 1999 100, 0, none⟩
    ⟨[("priceblock_ourprice", "$19.99")], "x"⟩ (Rat.divInt 1999 100)
    (by decide)).2.2 (by decide) (by decide)

/-- C4. Extraction failures are three distinct error kinds with
distinguishing detail, and extraction is total: no candidate text yields
`noPriceFound`, candidate text without a numeric token yields
`unrecognizedFormat`, an unparsable token yields `parseFailure`, and these
are the only error kinds `fetch_price` can produce. -/
theorem extraction_error_taxonomy (p : Page) :
    (candidateText p = none → fetch_price p = .error .noPriceFound) ∧
    (∀ t, candidateText p = some t → firstTok t.data = none →
      fetch_price p = .error .unrecognizedFormat) ∧
    (∀ t tok, candidateText p = some t → firstTok t.data = some tok →
      pyFloat? (stripCommas tok) = none → fetch_price p = .error .parseFailure) ∧
    (∀ e, fetch_price p = .error e →
      e = .noPriceFound ∨ e = .unrecognizedFormat ∨ e = .parseFailure) ∧
    ((AppError.noPriceFound ≠ .unrecognizedFormat ∧
      AppError.noPriceFound ≠ .parseFailure ∧
      AppError.unrecognizedFormat ≠ .parseFailure) ∧
     (AppError.noPriceFound.detail ≠ AppError.unrecognizedFormat.detail ∧
      AppError.noPriceFound.detail ≠ AppError.parseFailure.detail ∧
      AppError.unrecognizedFormat.detail ≠ AppError.parseFailure.detail)) := by
  refine ⟨?_, ?_, ?_, ?_, by decide⟩
  · intro h; unfold fetch_price; rw [h]
  · intro t h1 h2
    unfold fetch_price
    rw [h1]
    dsimp only
    rw [h2]
  · intro t tok h1 h2 h3
    unfold fetch_price
    rw [h1]
    dsimp only
    rw [h2]
    dsimp only
    rw [h3]
  · intro e he
    unfold fetch_price at he
    cases h1 : candidateText p with
    | none => rw [h1] at he; simp at he; exact .inl he.symm
    | some t =>
      rw [h1] at he
      dsimp only at he
      cases h2 : firstTok t.data with
      | none => rw [h2] at he; simp at he; exact .inr (.inl he.symm)
      | some tok =>
        rw [h2] at he
        dsimp only at he
        cases h3 : pyFloat? (stripCommas tok) with
        | none => rw [h3] at he; simp at he; exact .inr (.inr he.symm)
        | some v => rw [h3] at he; exact absurd he (by simp)

/-- Witness for C4: one concrete page per failure kind. -/
theorem extraction_error_taxonomy_witness :
    fetch_price ⟨[], "no digits here!"⟩ = .error .noPriceFound ∧
    fetch_price ⟨[("priceblock_ourprice", "N/A")], "also none"⟩ =
      .error .unrecognizedFormat ∧
    fetch_price ⟨[("priceblock_ourprice", ",,")], "x"⟩ = .error .parseFailure :=
  ⟨(extraction_error_taxonomy ⟨[], "no digits here!"⟩).1 (by decide),
   (extraction_error_taxonomy ⟨[("priceblock_ourprice", "N/A")], "also none"⟩).2.1
     "N/A" (by decide) (by decide),
   (extraction_error_taxonomy ⟨[("priceblock_ourprice", ",,")], "x"⟩).2.2.1
     ",," [',', ','] (by decide) (by decide) (by decide)⟩

/-- The scheme normalisation always yields an address carrying the prefix. -/
lemma hasScheme_withScheme (v : String) : hasScheme (withScheme v) = true := by
  unfold withScheme
  by_cases h : hasScheme v = true
  · rw [if_pos h]; exact h
  · rw [if_neg h]
    unfold hasScheme
    rw [String.data_append]
    exact List.isPrefixOf_iff_prefix.mpr (List.prefix_append _ _)

/-- C6. Recipient resolution: a non-empty per-request override wins;
otherwise the configured default is used; when neither is available the
result is `recipientMissing`, and in that case no transport call is ever
attempted; every successfully resolved address carries the `whatsapp:`
scheme prefix, which is added exactly when absent. -/
theorem recipient_resolution (cfg : Config) (s : Option String) :
    (∀ v, s = some v → v ≠ "" → resolve_recipient cfg s = .ok (withScheme v)) ∧
    (truthy s = none → ∀ d, truthy cfg.to_whatsapp = some d →
      resolve_recipient cfg s = .ok (withScheme d)) ∧
    (truthy s = none → truthy cfg.to_whatsapp = none →
      resolve_recipient cfg s = .error .recipientMissing) ∧
    (∀ r, resolve_recipient cfg s = .ok r → hasScheme r = true) ∧
    (∀ v, hasScheme v = true → withScheme v = v) ∧
    (∀ v, hasScheme v = false → withScheme v = "whatsapp:" ++ v) ∧
    (∀ (tr : Transport) (body : String) (e : AppError),
      resolve_recipient cfg s = .error e → (send_whatsapp cfg tr body s).2 = []) := by
  refine ⟨?_, ?_, ?_, ?_, ?_, ?_, ?_⟩
  · intro v hv hne
    subst hv
    simp [resolve_recipient, truthy, hne]
  · intro h d hd
    unfold resolve_recipient
    rw [h, hd]
  · intro h hd
    unfold resolve_recipient
    rw [h, hd]
  · intro r hr
    unfold resolve_recipient at hr
    cases hts : truthy s with
    | some v =>
        rw [hts] at hr
        injection hr with hr
        rw [← hr]; exact hasScheme_withScheme v
    | none =>
        rw [hts] at hr
        cases htd : truthy cfg.to_whatsapp with
        | some d =>
            rw [htd] at hr
            injection hr with hr
            rw [← hr]; exact hasScheme_withScheme d
        | none => rw [htd] at hr; exact absurd hr (by simp)
  · intro v h; unfold withScheme; rw [if_pos h]
  · intro v h; unfold withScheme; rw [if_neg (by simp [h])]
  · intro tr body e h
    exact send_whatsapp_no_send_of_resolve_error cfg tr body s e h

/-- Witness for C6 at concrete inputs: an override without the prefix is
used and prefixed; with no override and no default the resolution fails and
the spy transport records zero calls. -/
theorem recipient_resolution_witness :
    resolve_recipient cfgOK (some "+4477") = .ok (withScheme "+4477") ∧
    withScheme "+4477" = "whatsapp:+4477" ∧
    resolve_recipient ⟨some "s", some "a", none, some "f"⟩ none =
      .error .recipientMissing ∧
    (send_whatsapp ⟨some "s", some "a", none, some "f"⟩ trOK "hello" none).2 = [] := by
  refine ⟨(recipient_resolution cfgOK (some "+4477")).1 "+4477" rfl (by decide), ?_, ?_, ?_⟩
  · exact ((recipient_resolution cfgOK (some "+4477")).2.2.2.2.2.1 "+4477" (by decide))
  · exact (recipient_resolution ⟨some "s", some "a", none, some "f"⟩ none).2.2.1
      (by decide) (by decide)
  · exact (recipient_resolution ⟨some "s", some "a", none, some "f"⟩ none).2.2.2.2.2.2
      trOK "hello" .recipientMissing
      ((recipient_resolution ⟨some "s", some "a", none, some "f"⟩ none).2.2.1
        (by decide) (by decide))

/-- C7. Dispatcher delay semantics: with `delay_minutes > 0` the
dispatcher suspends for exactly `delay_minutes * 60` seconds before the
delivery call; with `delay_minutes = 0` there is no suspension; in either
case exactly one delivery attempt is made per call, whatever the transport
answers (no automatic retry). -/
theorem delayed_dispatch_semantics (cfg : Config) (tr : Transport)
    (body : String) (d : ℕ) (ov : Option String) (h : cfg.complete = true) :
    ∃ call : DeliveryCall, call.body = body ∧
      (delayed_whatsapp cfg tr body d ov).2 =
        (if d ≠ 0 then [Ev.sleep (d * 60)] else []) ++ [Ev.send call] ∧
      ((delayed_whatsapp cfg tr body d ov).2.filter Ev.isSend).length = 1 := by
  obtain ⟨call, hb, htrace⟩ := send_whatsapp_trace cfg tr body ov h
  have he : (delayed_whatsapp cfg tr body d ov).2 =
      (if d ≠ 0 then [Ev.sleep (d * 60)] else []) ++ [Ev.send call] := by
    simp only [delayed_whatsapp]
    rw [htrace]
  refine ⟨call, hb, he, ?_⟩
  rw [he]
  by_cases hd : d = 0 <;> simp [hd, Ev.isSend]

/-- Witness for C7: with a 5-minute delay the trace is a 300-second sleep
followed by one delivery; the failing-transport variant still makes exactly
one attempt. -/
theorem delayed_dispatch_semantics_witness :
    (∃ call : DeliveryCall, call.body = "b" ∧
      (delayed_whatsapp cfgOK trOK "b" 5 none).2 =
        (if (5 : ℕ) ≠ 0 then [Ev.sleep (5 * 60)] else []) ++ [Ev.send call] ∧
      ((delayed_whatsapp cfgOK trOK "b" 5 none).2.filter Ev.isSend).length = 1) ∧
    (∃ call : DeliveryCall, call.body = "b" ∧
      (delayed_whatsapp cfgOK (fun _ => .error "rejected") "b" 0 none).2 =
        (if (0 : ℕ) ≠ 0 then [Ev.sleep (0 * 60)] else []) ++ [Ev.send call] ∧
      ((delayed_whatsapp cfgOK (fun _ => .error "rejected") "b" 0 none).2.filter
          Ev.isSend).length = 1) :=
  ⟨delayed_dispatch_semantics cfgOK trOK "b" 5 none (by decide),
   delayed_dispatch_semantics cfgOK (fun _ => .error "rejected") "b" 0 none (by decide)⟩

/-- Counterexample to C3 as stated: on this page the highest-priority
identifier matches with non-empty (whitespace) text, yet the candidate is
taken from the page-wide scan — the element's non-empty text does not supply
the candidate and the full text is scanned although an identifier matched. -/
theorem extraction_fallback_order_cex :
    (⟨[("priceblock_ourprice", " "), ("priceblock_dealprice", "$5.00")],
        "reviews 42"⟩ : Page).findId "priceblock_ourprice" = some " " ∧
    (" " : String) ≠ "" ∧
    candidateText ⟨[("priceblock_ourprice", " "), ("priceblock_dealprice", "$5.00")],
        "reviews 42"⟩ = firstTokStr "reviews 42" ∧
    fetch_price ⟨[("priceblock_ourprice", " "), ("priceblock_dealprice", "$5.00")],
        "reviews 42"⟩ = .ok (Rat.divInt 42 1) ∧
    fetch_price ⟨[("priceblock_ourprice", " "), ("priceblock_dealprice", "$5.00")],
        "reviews 42"⟩ ≠ .ok (Rat.divInt 5 1) := by decide

/-- C3 (amended). The three known identifiers are tried in fixed
priority order and the first one with non-empty text supplies the stripped
candidate, which wins over any numeric text in the page body when it is
non-blank; the full visible text is scanned for the first currency-like
token exactly when no identifier matches or the first matching element's
text is whitespace-only. -/
theorem extraction_fallback_order_amended (p : Page) :
    (∀ t, p.findId "priceblock_ourprice" = some t → t ≠ "" →
      loopText p = some (pyStrip t)) ∧
    ((p.findId "priceblock_ourprice" = none ∨ p.findId "priceblock_ourprice" = some "") →
      ∀ t, p.findId "priceblock_dealprice" = some t → t ≠ "" →
        loopText p = some (pyStrip t)) ∧
    ((p.findId "priceblock_ourprice" = none ∨ p.findId "priceblock_ourprice" = some "") →
      (p.findId "priceblock_dealprice" = none ∨ p.findId "priceblock_dealprice" = some "") →
      ∀ t, p.findId "priceblock_saleprice" = some t → t ≠ "" →
        loopText p = some (pyStrip t)) ∧
    ((p.findId "priceblock_ourprice" = none ∨ p.findId "priceblock_ourprice" = some "") →
      (p.findId "priceblock_dealprice" = none ∨ p.findId "priceblock_dealprice" = some "") →
      (p.findId "priceblock_saleprice" = none ∨ p.findId "priceblock_saleprice" = some "") →
      loopText p = none) ∧
    (∀ t, loopText p = some t → t ≠ "" → candidateText p = some t) ∧
    (loopText p = none → candidateText p = firstTokStr p.text) ∧
    (loopText p = some "" → candidateText p = firstTokStr p.text) := by
  refine ⟨?_, ?_, ?_, ?_, ?_, ?_, ?_⟩
  · intro t h1 h2
    simp [loopText, priceIds, List.findSome?_cons, h1, h2]
  · rintro (h0 | h0) t h1 h2 <;>
      simp [loopText, priceIds, List.findSome?_cons, h0, h1, h2]
  · rintro (h0 | h0) (hb | hb) t h1 h2 <;>
      simp [loopText, priceIds, List.findSome?_cons, h0, hb, h1, h2]
  · rintro (h0 | h0) (hb | hb) (hc | hc) <;>
      simp [loopText, priceIds, List.findSome?_cons, h0, hb, hc]
  · intro t h1 h2
    unfold candidateText
    rw [h1]
    dsimp only
    rw [if_neg h2]
  · intro h
    unfold candidateText
    rw [h]
  · intro h
    unfold candidateText
    rw [h]
    simp

/-- Witness for C3 (amended): a second-priority element supplies the
candidate when the first identifier is absent; a whitespace-only first
element sends extraction to the page scan. -/
theorem extraction_fallback_order_amended_witness :
    loopText ⟨[("priceblock_dealprice", "$7.50")], "body 9"⟩ =
      some (pyStrip "$7.50") ∧
    candidateText ⟨[("priceblock_ourprice", " ")], "go 31"⟩ =
      firstTokStr "go 31" :=
  ⟨(extraction_fallback_order_amended ⟨[("priceblock_dealprice", "$7.50")], "body 9"⟩).2.1
      (.inl (by decide)) "$7.50" (by decide) (by decide),
   (extraction_fallback_order_amended ⟨[("priceblock_ourprice", " ")], "go 31"⟩).2.2.2.2.2.2
      (by decide)⟩

/-- C10. If the highest-priority price element exists with non-empty but
whitespace-only text, the element loop stops there (its value shadows every
lower-priority identifier, whatever they contain) yet the stripped candidate
is empty, so extraction falls through to the page-wide numeric scan instead
of failing. -/
theorem whitespace_element_shadows_but_scans (p : Page) (t : String)
    (h1 : p.findId "priceblock_ourprice" = some t) (h2 : t ≠ "")
    (h3 : pyStrip t = "") :
    loopText p = some "" ∧ candidateText p = firstTokStr p.text := by
  have hl : loopText p = some "" := by
    unfold loopText priceIds
    rw [List.findSome?_cons]
    simp [h1, h2, h3]
  exact ⟨hl, by unfold candidateText; rw [hl]; simp⟩

/-- C8. The notification body is the fixed newline-separated format with
literal field labels and the substituted URL, current price, target price
and triggered flag; on the example request (`target 20.00` against element
text `"$19.99"`) the extracted price is `19.99`, the request triggers, and
the single delivered body contains the substrings `"19.99"` and `"20.0"`. -/
theorem notification_body_contract :
    (∀ (cfg : Config) (tr : Transport) (req : NotifyRequest) (page : Page) (price : ℚ),
      fetch_price page = .ok price → price ≤ req.target_price → cfg.complete = true →
      ∃ call : DeliveryCall,
        (notify cfg tr req (.ok page)).2.filter Ev.isSend = [Ev.send call] ∧
        call.body =
          "Price alert for " ++ req.url ++ "\n" ++
          "Current price: " ++ formatPrice price ++ "\n" ++
          "Target: " ++ formatPrice req.target_price ++ "\n" ++
          "Triggered: " ++ "yes") ∧
    (fetch_price ⟨[("priceblock_ourprice", "$19.99")], "x"⟩ =
        .ok (Rat.divInt 1999 100) ∧
     notify cfgOK trOK ⟨"https://example.test/item", 20, 0, none⟩
         (.ok ⟨[("priceblock_ourprice", "$19.99")], "x"⟩) =
       (.ok ⟨"sent", some "SM1", Rat.divInt 1999 100, true⟩,
        [Ev.send ⟨"Price alert for https://example.test/item\nCurrent price: 19.99\nTarget: 20.0\nTriggered: yes",
           "+19999999999", "whatsapp:+10000000000"⟩]) ∧
     hasSubstr "19.99".data
       ("Price alert for https://example.test/item\nCurrent price: 19.99\nTarget: 20.0\nTriggered: yes").data = true ∧
     hasSubstr "20.0".data
       ("Price alert for https://example.test/item\nCurrent price: 19.99\nTarget: 20.0\nTriggered: yes").data = true) := by
  constructor
  · intro cfg tr req page price hp hle hc
    obtain ⟨call, hb, htr⟩ := notify_triggered_send cfg tr req page price hp hle hc
    refine ⟨call, ?_, ?_⟩
    · rw [htr]
      by_cases hd : req.delay_minutes = 0 <;> simp [hd, Ev.isSend]
    · rw [hb]
      simp [messageBody]
  · exact ⟨by decide, by decide, by decide, by decide⟩

/-- Witness for C8 (general part) at the example inputs: the delivered call
and its body, instantiated concretely. -/
theorem notification_body_contract_witness :
    ∃ call : DeliveryCall,
      (notify cfgOK trOK ⟨"https://example.test/item", 20, 0, none⟩
          (.ok ⟨[("priceblock_ourprice", "$19.99")], "x"⟩)).2.filter Ev.isSend =
        [Ev.send call] ∧
      call.body =
        "Price alert for " ++ "https://example.test/item" ++ "\n" ++
        "Current price: " ++ formatPrice (Rat.divInt 1999 100) ++ "\n" ++
        "Target: " ++ formatPrice ((20 : ℚ)) ++ "\n" ++
        "Triggered: " ++ "yes" :=
  notification_body_contract.1 cfgOK trOK
    ⟨"https://example.test/item", 20, 0, none⟩
    ⟨[("priceblock_ourprice", "$19.99")], "x"⟩ (Rat.divInt 1999 100)
    (by decide) (by decide) (by decide)

/-- Witness for C10: the first identifier holds `" "`, the second holds a
perfectly good price, and extraction still takes the number from the page
text. -/
theorem whitespace_element_shadows_but_scans_witness :
    loopText ⟨[("priceblock_ourprice", " "), ("priceblock_dealprice", "$5.00")],
        "reviews 42 items"⟩ = some "" ∧
    candidateText ⟨[("priceblock_ourprice", " "), ("priceblock_dealprice", "$5.00")],
        "reviews 42 items"⟩ =
      firstTokStr "reviews 42 items" :=
  whitespace_element_shadows_but_scans
    ⟨[("priceblock_ourprice", " "), ("priceblock_dealprice", "$5.00")], "reviews 42 items"⟩
    " " (by decide) (by decide) (by decide)

/-- Every character kept by `takeWhile` satisfies the predicate. -/
lemma all_takeWhile_self {α : Type} (p : α → Bool) (l : List α) :
    (l.takeWhile p).all p = true := by
  rw [List.all_eq_true]
  intro x hx
  exact List.mem_takeWhile_imp hx

/-- Shape of a greedy anchored match: the `[\d,]+` run followed by an
optional `.`-plus-digits part. -/
lemma tokenAt_shape (cs : List Char) :
    ∃ ds, tokenAt cs = cs.takeWhile isTokChar ++ ds ∧
      (ds = [] ∨ ∃ es, ds = '.' :: es ∧ es.all Char.isDigit = true) := by
  unfold tokenAt
  dsimp only
  by_cases h : (cs.drop (cs.takeWhile isTokChar).length).head? = some '.'
  · rw [if_pos h]
    exact ⟨_, rfl, .inr ⟨_, rfl, all_takeWhile_self _ _⟩⟩
  · rw [if_neg h]
    exact ⟨[], by simp, .inl rfl⟩

/-- Shape of any token returned by the leftmost search: a non-empty run of
digits/commas followed by an optional `.`-plus-digits part. -/
lemma firstTok_shape (t tok : List Char) (h : firstTok t = some tok) :
    ∃ r1 ds, tok = r1 ++ ds ∧ r1 ≠ [] ∧ r1.all isTokChar = true ∧
      (ds = [] ∨ ∃ es, ds = '.' :: es ∧ es.all Char.isDigit = true) := by
  induction t with
  | nil => simp [firstTok] at h
  | cons c cs ih =>
    rw [firstTok] at h
    by_cases hc : isTokChar c = true
    · rw [if_pos hc] at h
      injection h with h
      obtain ⟨ds, heq, hds⟩ := tokenAt_shape (c :: cs)
      refine ⟨(c :: cs).takeWhile isTokChar, ds, by rw [← h, heq], ?_,
        all_takeWhile_self _ _, hds⟩
      rw [List.takeWhile_cons, if_pos hc]
      simp
    · rw [if_neg hc] at h
      exact ih h

/-- A digit/comma character that is not a comma is a digit. -/
lemma isDigit_of_tokChar_ne_comma {x : Char} (h1 : isTokChar x = true)
    (h2 : x ≠ ',') : x.isDigit = true := by
  unfold isTokChar at h1
  rcases Bool.or_eq_true_iff.mp h1 with h | h
  · exact h
  · exact absurd (beq_iff_eq.mp h) h2

/-- Python `float` on a comma-stripped token succeeds exactly when the token
contains at least one digit. -/
lemma pyFloat_stripCommas_token (r1 ds : List Char)
    (hr1 : r1.all isTokChar = true)
    (hds : ds = [] ∨ ∃ es, ds = '.' :: es ∧ es.all Char.isDigit = true) :
    (pyFloat? (stripCommas (r1 ++ ds))).isSome = (r1 ++ ds).any Char.isDigit := by
  have hr1' : ∀ x ∈ r1, isTokChar x = true := List.all_eq_true.mp hr1
  have hnodotr1 : '.' ∉ r1 := by
    intro hmem
    have := hr1' '.' hmem
    simp [isTokChar] at this
  by_cases hany : (r1 ++ ds).any Char.isDigit = true
  · rw [hany]
    have hmemtok : ∀ x ∈ stripCommas (r1 ++ ds), x ∈ r1 ++ ds ∧ x ≠ ',' := by
      intro x hx
      unfold stripCommas at hx
      obtain ⟨hmem, hne⟩ := List.mem_filter.mp hx
      refine ⟨hmem, ?_⟩
      intro hcomma
      subst hcomma
      simp at hne
    have h1 : (stripCommas (r1 ++ ds)).all (fun c => c.isDigit || c == '.') = true := by
      rw [List.all_eq_true]
      intro x hx
      obtain ⟨hmem, hne⟩ := hmemtok x hx
      rcases List.mem_append.mp hmem with hr | hd
      · simp [isDigit_of_tokChar_ne_comma (hr1' x hr) hne]
      · rcases hds with h | ⟨es, hes, hesall⟩
        · subst h; simp at hd
        · subst hes
          rcases List.mem_cons.mp hd with h | h
          · simp [h]
          · simp [List.all_eq_true.mp hesall x h]
    have h2 : (stripCommas (r1 ++ ds)).count '.' ≤ 1 := by
      unfold stripCommas
      rw [List.filter_append, List.count_append]
      have hz1 : (r1.filter (fun c => c != ',')).count '.' = 0 :=
        List.count_eq_zero_of_not_mem fun hmem =>
          hnodotr1 (List.mem_of_mem_filter hmem)
      rw [hz1]
      rcases hds with h | ⟨es, hes, hesall⟩
      · subst h; simp
      · subst hes
        rw [List.filter_cons]
        have hdot : (('.' : Char) != ',') = true := by decide
        rw [if_pos hdot]
        rw [List.count_cons_self]
        have hz2 : (es.filter (fun c => c != ',')).count '.' = 0 := by
          refine List.count_eq_zero_of_not_mem fun hmem => ?_
          have hd := List.all_eq_true.mp hesall '.' (List.mem_of_mem_filter hmem)
          simp at hd
        simp [hz2]
    have h3 : (stripCommas (r1 ++ ds)).any Char.isDigit = true := by
      rw [List.any_eq_true]
      obtain ⟨x, hmem, hdig⟩ := List.any_eq_true.mp hany
      refine ⟨x, ?_, hdig⟩
      unfold stripCommas
      rw [List.mem_filter]
      refine ⟨hmem, ?_⟩
      have hxne : x ≠ ',' := by
        intro h
        subst h
        simp at hdig
      simp [hxne]
    unfold pyFloat?
    rw [if_pos (by simp [h1, h3, h2])]
    rfl
  · have hany' : (r1 ++ ds).any Char.isDigit = false :=
      Bool.eq_false_iff.mpr hany
    rw [hany']
    have h3 : (stripCommas (r1 ++ ds)).any Char.isDigit = false := by
      rw [List.any_eq_false]
      intro x hx
      unfold stripCommas at hx
      exact List.any_eq_false.mp hany' x (List.mem_of_mem_filter hx)
    unfold pyFloat?
    rw [if_neg]
    · rfl
    · intro hcond
      have hsplit := (Bool.and_eq_true _ _).mp hcond
      rw [h3] at hsplit
      exact Bool.false_ne_true hsplit.2

/-- For any token produced by the leftmost search over any text, the parse
succeeds exactly when the token contains a digit. -/
lemma firstTok_parse_iff (t tok : List Char) (h : firstTok t = some tok) :
    (pyFloat? (stripCommas tok)).isSome = tok.any Char.isDigit := by
  obtain ⟨r1, ds, heq, _, hall, hds⟩ := firstTok_shape t tok h
  subst heq
  exact pyFloat_stripCommas_token r1 ds hall hds

/-- Counterexample to C9 as stated: on element text `",."` the first matched
token is `",."`, which does **not** consist solely of commas, yet the parse
fails and extraction reports `parseFailure`. -/
theorem parse_failure_solely_commas_cex :
    firstTok ",.".data = some [',', '.'] ∧
    ([',', '.'].all fun c => c == ',') = false ∧
    pyFloat? (stripCommas [',', '.']) = none ∧
    fetch_price ⟨[("priceblock_ourprice", ",.")], "x"⟩ = .error .parseFailure := by
  decide

/-- C9 (amended). The `parseFailure` branch is reachable but only for
degenerate tokens: any first matched token containing at least one digit
parses successfully after comma stripping, and the parse fails exactly when
the token contains no digit — i.e. it consists of commas optionally followed
by a trailing dot, which the token pattern admits. -/
theorem parse_failure_exactly_tokens_without_digit :
    (∀ (t tok : List Char), firstTok t = some tok →
      ((∃ v, pyFloat? (stripCommas tok) = some v) ↔ tok.any Char.isDigit = true)) ∧
    (∀ (p : Page) (t : String) (tok : List Char),
      candidateText p = some t → firstTok t.data = some tok →
      (fetch_price p = .error .parseFailure ↔ tok.any Char.isDigit = false)) := by
  constructor
  · intro t tok h
    have hiff := firstTok_parse_iff t tok h
    constructor
    · intro hex
      obtain ⟨v, hv⟩ := hex
      rw [← hiff, hv]
      rfl
    · intro hd
      rw [hd] at hiff
      exact Option.isSome_iff_exists.mp hiff
  · intro p t tok h1 h2
    have hiff := firstTok_parse_iff t.data tok h2
    unfold fetch_price
    rw [h1]
    dsimp only
    rw [h2]
    dsimp only
    cases h3 : pyFloat? (stripCommas tok) with
    | some v =>
        rw [h3] at hiff
        constructor
        · intro hres; exact absurd hres (by simp)
        · intro hd; rw [hd] at hiff; exact absurd hiff (by simp)
    | none =>
        rw [h3] at hiff
        exact ⟨fun _ => by simpa using hiff.symm, fun _ => rfl⟩

/-- Witness for C9 (amended): the digit token `42` parses; the comma-only
token `",,"` makes extraction fail with `parseFailure`. -/
theorem parse_failure_exactly_tokens_without_digit_witness :
    ((∃ v, pyFloat? (stripCommas ['4', '2']) = some v) ↔
      (['4', '2'].any Char.isDigit = true)) ∧
    (fetch_price ⟨[("priceblock_ourprice", ",,")], "x"⟩ = .error .parseFailure ↔
      ([',', ','].any Char.isDigit = false)) :=
  ⟨parse_failure_exactly_tokens_without_digit.1 "42".data ['4', '2'] (by decide),
   parse_failure_exactly_tokens_without_digit.2
     ⟨[("priceblock_ourprice", ",,")], "x"⟩ ",," [',', ','] (by decide) (by decide)⟩

end PriceNotifier
